import Mathlib

/-!
# go_ns: the RTSP endpoint prober and the bounded command runner

A shallow embedding of `src/svc/rtsp.go` (`RTSP.Request`, `RTSP.Query`,
`RTSP.check`, `NewRTSP`) and of `src/utils/cmd.go` (`Flags`, `RunCommand`).

Conventions of the embedding:

* a Go `string` that the program builds or receives as an argument (address,
  path, request text, command) is a Lean `String`;
* the bytes read from the network are a `List Nat` (one element a byte);
* Go's `int` is `Int`; the 64-bit range matters only inside `Atoi`;
* the network, the result channel and the spawned process are replaced by
  explicit inputs (what the peer answers, which branch of the race is taken)
  and explicit outputs (the ordered list of effects the function performs).
-/

namespace GoNs

/-! ## The fragment of `fmt.Sprintf` the source uses -/

/-- An operand of `fmt.Sprintf`: a `string` or an `int`. -/
inductive Arg where
  | str (s : String)
  | int (i : Int)
  deriving DecidableEq, Repr

/-- `fmt.Sprintf` on the verbs the source uses: `%s` with a string operand, `%d`
with an int operand (decimal, `-` for negatives), and `%%`. Any other verb, a
missing operand, an operand of the other type or a left-over operand is outside
this fragment and gives `none`. -/
def Sprintf : List Char → List Arg → Option (List Char)
  | [], [] => some []
  | [], _ :: _ => none
  | c :: fmt, args =>
    if c = '%' then
      match fmt, args with
      | 's' :: rest, Arg.str s :: args' => (Sprintf rest args').map (s.data ++ ·)
      | 'd' :: rest, Arg.int i :: args' => (Sprintf rest args').map ((toString i).data ++ ·)
      | '%' :: rest, args' => (Sprintf rest args').map ('%' :: ·)
      | _, _ => none
    else (Sprintf fmt args).map (c :: ·)

/-- The string `fmt.Sprintf` returns; the empty string stands for a call
outside the modelled fragment (none of the source's three calls is). -/
def sprintf (format : String) (args : List Arg) : String :=
  match Sprintf format.data args with
  | some cs => String.mk cs
  | none => ""

/-! ## `RTSP`, `NewRTSP`, `Query` -/

/-- The fields of `type RTSP struct` that the request text and the result depend
on. The connection `conn` and the channel `ch` are the explicit state and the
effect trace of `check` below. -/
structure RTSP where
  Address : String
  cseq : Int
  deriving DecidableEq, Repr

/-- The constant `RTSP_HDR`. -/
def RTSP_HDR : String :=
  "%s %s RTSP/1.0\r\n" ++
  "CSeq: %d\r\n" ++
  "User-Agent: LibVLC/3.0.0\r\n" ++
  "Accept: application/sdp\r\n\r\n"

/-- `NewRTSP(address)`: `cseq` is left at its zero value. -/
def NewRTSP (address : String) : RTSP :=
  { Address := address, cseq := 0 }

/-- `(r *RTSP) Query(path)`. -/
def Query (r : RTSP) (path : String) : String :=
  let method := if path = "*" then "OPTIONS" else "DESCRIBE"
  sprintf RTSP_HDR [Arg.str method, Arg.str path, Arg.int r.cseq]

/-! ## Byte strings and the library functions `Request` calls -/

/-- The UTF-8 bytes of one character. -/
def utf8Bytes (c : Char) : List Nat :=
  let n := c.toNat
  if n < 0x80 then [n]
  else if n < 0x800 then [0xC0 + n / 0x40, 0x80 + n % 0x40]
  else if n < 0x10000 then [0xE0 + n / 0x1000, 0x80 + n / 0x40 % 0x40, 0x80 + n % 0x40]
  else [0xF0 + n / 0x40000, 0x80 + n / 0x1000 % 0x40, 0x80 + n / 0x40 % 0x40, 0x80 + n % 0x40]

/-- The conversion `[]byte(s)`: the UTF-8 bytes of a string. -/
def bytesOf (s : String) : List Nat :=
  s.data.flatMap utf8Bytes

/-- The rune `utf8.RuneError`. -/
def RuneError : Nat := 0xFFFD

/-- `utf8.DecodeRuneInString`, which is also what `for _, r := range s` does at
each step: the first rune of the byte string and its width. An ill-formed or
truncated sequence gives `(RuneError, 1)`. -/
def DecodeRune : List Nat → Nat × Nat
  | [] => (RuneError, 0)
  | s0 :: rest =>
    if s0 < 0x80 then (s0, 1)
    else if s0 < 0xC2 ∨ 0xF4 < s0 then (RuneError, 1)
    else
      -- the range accepted for the second byte
      let lo := if s0 = 0xE0 then 0xA0 else if s0 = 0xF0 then 0x90 else 0x80
      let hi := if s0 = 0xED then 0x9F else if s0 = 0xF4 then 0x8F else 0xBF
      match rest with
      | [] => (RuneError, 1)
      | s1 :: rest1 =>
        if s0 < 0xE0 then
          if s1 < lo ∨ hi < s1 then (RuneError, 1)
          else (((s0 &&& 0x1F) <<< 6) ||| (s1 &&& 0x3F), 2)
        else
          match rest1 with
          | [] => (RuneError, 1)
          | s2 :: rest2 =>
            if s0 < 0xF0 then
              if s1 < lo ∨ hi < s1 then (RuneError, 1)
              else if s2 < 0x80 ∨ 0xBF < s2 then (RuneError, 1)
              else (((s0 &&& 0x0F) <<< 12) ||| ((s1 &&& 0x3F) <<< 6) ||| (s2 &&& 0x3F), 3)
            else
              match rest2 with
              | [] => (RuneError, 1)
              | s3 :: _ =>
                if s1 < lo ∨ hi < s1 then (RuneError, 1)
                else if s2 < 0x80 ∨ 0xBF < s2 then (RuneError, 1)
                else if s3 < 0x80 ∨ 0xBF < s3 then (RuneError, 1)
                else (((s0 &&& 0x07) <<< 18) ||| ((s1 &&& 0x3F) <<< 12) |||
                      ((s2 &&& 0x3F) <<< 6) ||| (s3 &&& 0x3F), 4)

/-- The pairs `(offset, rune)` that `for end, rune := range s` visits, in
order. `fuel` bounds the number of steps; `len(s)` is enough, every step
consuming at least one byte. -/
def rangeString : Nat → Nat → List Nat → List (Nat × Nat)
  | 0, _, _ => []
  | _, _, [] => []
  | fuel + 1, i, s0 :: rest =>
    let size := (DecodeRune (s0 :: rest)).2
    (i, (DecodeRune (s0 :: rest)).1) :: rangeString fuel (i + size) ((s0 :: rest).drop size)

/-- `unicode.IsSpace`: the Latin-1 cases, then the `White_Space` range table. -/
def IsSpace (r : Nat) : Bool :=
  if r ≤ 0xFF then
    r = 0x09 ∨ r = 0x0A ∨ r = 0x0B ∨ r = 0x0C ∨ r = 0x0D ∨ r = 0x20 ∨ r = 0x85 ∨ r = 0xA0
  else
    r = 0x1680 ∨ (0x2000 ≤ r ∧ r ≤ 0x200A) ∨ r = 0x2028 ∨ r = 0x2029 ∨ r = 0x202F ∨
      r = 0x205F ∨ r = 0x3000

/-- The loop of `strings.FieldsFunc`: the spans `[start, end)` of the fields.
`start` is `none` where the Go code holds a negative `start`; `n` is `len(s)`. -/
def fieldSpans (f : Nat → Bool) (n : Nat) : List (Nat × Nat) → Option Nat → List (Nat × Nat)
  | [], none => []
  | [], some start => [(start, n)]
  | (e, r) :: rest, start =>
    if f r then
      match start with
      | some st => (st, e) :: fieldSpans f n rest none
      | none => fieldSpans f n rest none
    else
      match start with
      | some st => fieldSpans f n rest (some st)
      | none => fieldSpans f n rest (some e)

/-- `strings.FieldsFunc(s, f)`: the slices `s[start:end]` of the recorded spans. -/
def FieldsFunc (s : List Nat) (f : Nat → Bool) : List (List Nat) :=
  (fieldSpans f s.length (rangeString s.length 0 s) none).map
    fun span => (s.drop span.1).take (span.2 - span.1)

/-- `strings.Fields(s)`: the maximal runs of non-space runes of `s`. (The
ASCII fast path of the library computes the same list: on bytes below `0x80`
its table `asciiSpace` and `unicode.IsSpace` agree.) -/
def Fields (s : List Nat) : List (List Nat) :=
  FieldsFunc s IsSpace

/-- `strings.HasPrefix(s, prefix)`. -/
def HasPrefix (s pre : List Nat) : Bool :=
  pre.isPrefixOf s

/-- The two sentinel errors a `*strconv.NumError` wraps. -/
inductive NumErr where
  | ErrSyntax
  | ErrRange
  deriving DecidableEq, Repr

/-- The digit loop of `strconv.ParseUint(s, 10, 64)` after the empty-string
check, with `n` the value accumulated so far in a `uint64`. A byte that is not a
decimal digit is a syntax error; an overflow is a range error, reported at the
digit where it happens. -/
def parseUintLoop : List Nat → Nat → Except NumErr Nat
  | [], n => .ok n
  | c :: rest, n =>
    if 0x30 ≤ c ∧ c ≤ 0x39 then
      let d := c - 0x30
      let maxVal := 2 ^ 64 - 1
      let cutoff := maxVal / 10 + 1
      if n ≥ cutoff then .error .ErrRange
      else
        let n10 := n * 10 % 2 ^ 64
        let n1 := (n10 + d) % 2 ^ 64
        if n1 < n10 ∨ n1 > maxVal then .error .ErrRange
        else parseUintLoop rest n1
    else .error .ErrSyntax

/-- `strconv.ParseUint(s, 10, 64)`. -/
def ParseUint (s : List Nat) : Except NumErr Nat :=
  if s = [] then .error .ErrSyntax else parseUintLoop s 0

/-- `strconv.ParseInt(s, 10, 0)` on a platform whose `int` has 64 bits: an
optional sign, then `ParseUint`, then the range check against `1 << 63`. -/
def ParseInt (s : List Nat) : Except NumErr Int :=
  match s with
  | [] => .error .ErrSyntax
  | s0 :: rest =>
    let neg := s0 = 0x2D
    let digits := if s0 = 0x2B ∨ s0 = 0x2D then rest else s0 :: rest
    match ParseUint digits with
    | .error e => .error e
    | .ok un =>
      let cutoff := 2 ^ 63
      if ¬ neg ∧ un ≥ cutoff then .error .ErrRange
      else if neg ∧ un > cutoff then .error .ErrRange
      else .ok (if neg then - (un : Int) else (un : Int))

/-- The errors `Request` can return. -/
inductive Error where
  /-- The error of `r.conn.Write`. -/
  | write
  /-- The error of `r.conn.Read`. -/
  | read
  /-- The value of `errors.New("Bad response")`. -/
  | badResponse
  /-- The `*strconv.NumError` of `Atoi`: the rejected text and the cause. -/
  | numError (num : List Nat) (err : NumErr)
  deriving DecidableEq, Repr

/-- `strconv.Atoi(s)`. Its fast path for short inputs returns what
`ParseInt(s, 10, 0)` returns, so only the latter is spelled out. The integer
Go returns next to a non-nil error is not kept: no caller in the source reads
it. -/
def Atoi (s : List Nat) : Except Error Int :=
  match ParseInt s with
  | .ok n => .ok n
  | .error e => .error (.numError s e)

/-! ## The connection and `Request` -/

/-- What happens to one request once `Request` hands it to the connection. -/
inductive Exchange where
  /-- `r.conn.Write` returns an error. -/
  | writeFails
  /-- The write succeeds and `r.conn.Read` returns an error. -/
  | readFails
  /-- The write succeeds and `r.conn.Read` returns without error, having stored
  `data` at the start of the buffer. -/
  | reply (data : List Nat)
  deriving DecidableEq, Repr

/-- The remote end of a connection: what it does with a request, given every
request written on the connection so far, the current one last. A peer that
answers by the request alone looks at the last element only. -/
abbrev Peer := List String → Exchange

/-- The state of `r.conn`: the peer and the requests written so far. -/
structure Conn where
  peer : Peer
  sent : List String

/-- The connection after a call of `Request(req)`: whatever the outcome of the
call, `req` was handed to `r.conn.Write`. -/
def Conn.wrote (conn : Conn) (req : String) : Conn :=
  { conn with sent := conn.sent ++ [req] }

/-- The buffer `m` of `Request` after `r.conn.Read(m)` stored `data`: the 1024
zero bytes of `make([]byte, 1024)`, overwritten from the start by `data`. -/
def readBuffer (data : List Nat) : List Nat :=
  List.take 1024 (data ++ List.replicate 1024 0)

/-- `(r *RTSP) Request(req)` on the connection `conn`: the returned pair
`(int, error)` as an `Except`. The connection after the call is
`conn.wrote req`. -/
def Request (conn : Conn) (req : String) : Except Error Int :=
  match conn.peer (conn.sent ++ [req]) with
  | .writeFails => .error .write
  | .readFails => .error .read
  | .reply data =>
    let m := readBuffer data
    let f := Fields m
    if 2 < f.length ∧ HasPrefix (f.getD 0 []) (bytesOf "RTSP") then
      Atoi (f.getD 1 [])
    else
      .error .badResponse

/-! ## `check` -/

/-- The network as `check` sees it: `Dial("tcp", address)` within its two
seconds gives a connection to a peer, or fails. -/
abbrev Network := String → Option Peer

/-- The effects of `check`, in the order it performs them. -/
inductive Event where
  /-- The call `d.Dial("tcp", address)`. -/
  | dial (address : String)
  /-- A call of `r.Request(req)`. -/
  | request (req : String)
  /-- The send `r.ch <- v`, completed by a receiver. -/
  | send (v : String)
  /-- The deferred `r.conn.Close()`. -/
  | closeConn
  /-- The deferred `close(r.ch)`. -/
  | closeChan
  /-- The run-time panic of `*paths` on a nil pointer. -/
  | nilPanic
  deriving DecidableEq, Repr

/-- The loop `for _, path := range *paths` of `check`. -/
def sweep (r : RTSP) : Conn → List String → List Event
  | _, [] => []
  | conn, path :: rest =>
    Event.request (Query r path) ::
      match Request conn (Query r path) with
      | .error _ => []
      | .ok code =>
        if code = 401 then []
        else if code = 200 then
          [Event.send (sprintf "rtsp://%s%s" [Arg.str r.Address, Arg.str path])]
        else sweep r (conn.wrote (Query r path)) rest

/-- The body of `check` once the connection is open, up to its `return`. The
argument `paths` is the pointer `*[]string`: `none` is the nil pointer. -/
def checkBody (r : RTSP) (conn : Conn) (paths : Option (List String)) : List Event :=
  Event.request (Query r "*") ::
    match Request conn (Query r "*") with
    | .error _ => []
    | .ok _ =>
      Event.request (Query r "/") ::
        match Request (conn.wrote (Query r "*")) (Query r "/") with
        | .error _ => []
        | .ok code =>
          if code = 401 then []
          else if code = 200 then [Event.send (sprintf "rtsp://%s/" [Arg.str r.Address])]
          else
            match paths with
            | none => [Event.nilPanic]
            | some ps => sweep r ((conn.wrote (Query r "*")).wrote (Query r "/")) ps

/-- `(r *RTSP) check(paths)`, which `CheckPaths` starts as a goroutine before it
returns `r.ch`: every effect of one run that comes to an end, the deferred
calls last, in the reverse order of their `defer`. -/
def check (r : RTSP) (net : Network) (paths : Option (List String)) : List Event :=
  match net r.Address with
  | none => [Event.dial r.Address, Event.closeChan]
  | some peer =>
    Event.dial r.Address ::
      (checkBody r { peer := peer, sent := [] } paths ++ [Event.closeConn, Event.closeChan])

/-- The requests of a run, in the order sent. -/
def requests : List Event → List String
  | [] => []
  | Event.request req :: es => req :: requests es
  | _ :: es => requests es

/-- The values a run sends on the result channel. -/
def emitted : List Event → List String
  | [] => []
  | Event.send v :: es => v :: emitted es
  | _ :: es => emitted es

/-- The operations of a run on the result channel: its sends and closes. -/
def chanOps : List Event → List Event
  | [] => []
  | Event.send v :: es => Event.send v :: chanOps es
  | Event.closeChan :: es => Event.closeChan :: chanOps es
  | _ :: es => chanOps es

/-- The result of the `OPTIONS *` request on a fresh connection to `peer`. -/
def optionsResult (r : RTSP) (peer : Peer) : Except Error Int :=
  Request { peer := peer, sent := [] } (Query r "*")

/-- The result of the `DESCRIBE /` request, sent after `OPTIONS *`. -/
def rootResult (r : RTSP) (peer : Peer) : Except Error Int :=
  Request { peer := peer, sent := [Query r "*"] } (Query r "/")

/-- The result of the `DESCRIBE` for the candidate at position `j`, sent after
`OPTIONS *`, `DESCRIBE /` and the candidates at the positions before `j`. -/
def candidateResult (r : RTSP) (peer : Peer) (paths : List String) (j : Nat) :
    Except Error Int :=
  Request { peer := peer, sent := Query r "*" :: Query r "/" :: (paths.take j).map (Query r) }
    (Query r (paths.getD j ""))

/-- The result of the request at position `k` of the sequence `reqs`, sent
after the `k` requests before it. -/
def resultAt (peer : Peer) (reqs : List String) (k : Nat) : Except Error Int :=
  Request { peer := peer, sent := reqs.take k } (reqs.getD k "")

/-! ## `utils/cmd.go`: `Flags` and `RunCommand` -/

/-- The type `Flags`, a `uint8`: a natural number, read modulo `2 ^ 8`. -/
abbrev Flags := Nat

/-- `ERR Flags = 1 << iota`, with `iota = 0`. -/
def ERR : Flags := 1 <<< 0

/-- The constant `WARN`, with `iota = 1`. -/
def WARN : Flags := 1 <<< 1

/-- The constant `INFO`, with `iota = 2`. -/
def INFO : Flags := 1 <<< 2

/-- `(b Flags) Set(flag)`: `b | flag`. -/
def Flags.Set (b flag : Flags) : Flags := (b ||| flag) % 2 ^ 8

/-- `(b Flags) Clear(flag)`: `b &^ flag`. -/
def Flags.Clear (b flag : Flags) : Flags := (b &&& (flag % 2 ^ 8 ^^^ (2 ^ 8 - 1))) % 2 ^ 8

/-- `(b Flags) Toggle(flag)`: `b ^ flag`. -/
def Flags.Toggle (b flag : Flags) : Flags := (b ^^^ flag) % 2 ^ 8

/-- `(b Flags) Has(flag)`: `b&flag != 0`. -/
def Flags.Has (b flag : Flags) : Bool := (b &&& flag) % 2 ^ 8 ≠ 0

/-- Which case of the `select` of `RunCommand` is taken. -/
inductive Race where
  /-- The value of `time.After(timeout)` is received first. -/
  | timeout
  /-- The result `err` of `cmd.Wait()` is received first from `done`: `none` is
  the nil error, `some msg` an error whose text is `msg`. -/
  | exited (err : Option String)
  deriving DecidableEq, Repr

/-- The effects of `RunCommand`, in the order it performs them. The helpers
`EPrintln` and `EPrintf` of package `utils` are declared outside the two source
files; a call of one is recorded with its arguments. -/
inductive Effect where
  /-- The call `cmd.Start()` of `exec.Command(shell, opt, command)`. -/
  | start (shell opt command : String)
  /-- The call `cmd.Process.Kill()` on a started process. -/
  | kill
  /-- The run-time panic of `cmd.Process.Kill()` when `cmd.Process` is nil. -/
  | nilPanic
  /-- A call `EPrintln(args...)`. -/
  | eprintln (args : List String)
  /-- A call `fmt.Print(s)`. -/
  | print (s : String)
  /-- A call `EPrintf(format, arg)`. -/
  | eprintf (format : String) (arg : String)
  /-- The deferred `wg.Done()`. -/
  | wgDone
  deriving DecidableEq, Repr

/-- `bytes.Buffer.Len()` of a buffer whose content is `s`: its number of bytes. -/
def bufLen (s : String) : Nat := s.utf8ByteSize

/-- `RunCommand(command, wg, timeout, flags)`. The inputs that the Go function
gets from its environment are arguments here: `goos` is `runtime.GOOS`,
`started` tells whether `cmd.Start()` (whose error the source drops) left a
process in `cmd.Process`, `race` is the case of the `select` that is taken, and
`stdout`, `stderr` are the contents of the two buffers at that moment. -/
def RunCommand (goos command : String) (started : Bool) (race : Race)
    (stdout stderr : String) (flags : Flags) : List Effect :=
  let shell := if goos = "windows" then "cmd.exe" else "sh"
  let opt := if goos = "windows" then "/C" else "-c"
  let log := [Effect.start shell opt command]
  let log :=
    match race with
    | .timeout =>
      if started then
        let log := log ++ [Effect.kill]
        if flags.Has WARN then
          log ++ [Effect.eprintln ["[W:CB:timeout]", "'" ++ command ++ "'"]]
        else log
      else log ++ [Effect.nilPanic]
    | .exited err =>
      let log :=
        match err with
        | some msg =>
          if flags.Has ERR then
            log ++ [Effect.eprintln ["[W:CB:E]", "'" ++ command ++ "'", msg]]
          else log
        | none => log
      let log :=
        if flags.Has INFO ∧ bufLen stdout ≠ 0 then log ++ [Effect.print stdout] else log
      if flags.Has ERR ∧ bufLen stderr ≠ 0 then
        log ++ [Effect.eprintf "[i:CB:err] %s" stderr]
      else log
  log ++ [Effect.wgDone]

/-- The reports among the effects of a run: the calls of `EPrintln`,
`fmt.Print` and `EPrintf`. -/
def reports (log : List Effect) : List Effect :=
  log.filter fun e =>
    match e with
    | .eprintln _ => true
    | .print _ => true
    | .eprintf _ _ => true
    | _ => false

/-! ## Example peers -/

/-- A reply of an RTSP server: the status line built from `status`, one header
line and the empty line. -/
def statusReply (status : String) : List Nat :=
  bytesOf ("RTSP/1.0 " ++ status ++ "\r\nCSeq: 0\r\n\r\n")

/-- A peer that answers each request by its text alone. -/
def answerBy (table : String → Exchange) : Peer := fun sent =>
  match sent.getLast? with
  | some req => table req
  | none => Exchange.writeFails

/-- A camera that answers 200 to every request. -/
def openCamera : Peer :=
  answerBy fun _ => Exchange.reply (statusReply "200 OK")

/-- A camera that accepts `OPTIONS *` and asks for credentials on every
`DESCRIBE`. -/
def lockedCamera : Peer :=
  answerBy fun req =>
    if req = Query (NewRTSP "10.0.0.7:554") "*" then Exchange.reply (statusReply "200 OK")
    else Exchange.reply (statusReply "401 Unauthorized")

/-- A camera whose only stream is at `/live`. -/
def liveCamera : Peer :=
  answerBy fun req =>
    if req = Query (NewRTSP "10.0.0.7:554") "*" then Exchange.reply (statusReply "200 OK")
    else if req = Query (NewRTSP "10.0.0.7:554") "/live" then
      Exchange.reply (statusReply "200 OK")
    else Exchange.reply (statusReply "404 Not Found")

/-- A camera that has a stream at `/b` and asks for credentials at `/a`. -/
def guardedCamera : Peer :=
  answerBy fun req =>
    if req = Query (NewRTSP "10.0.0.7:554") "*" then Exchange.reply (statusReply "200 OK")
    else if req = Query (NewRTSP "10.0.0.7:554") "/a" then
      Exchange.reply (statusReply "401 Unauthorized")
    else if req = Query (NewRTSP "10.0.0.7:554") "/b" then
      Exchange.reply (statusReply "200 OK")
    else Exchange.reply (statusReply "404 Not Found")

/-- A server that answers 401 to `OPTIONS *` and 200 to every `DESCRIBE`. -/
def optionsLockedCamera : Peer :=
  answerBy fun req =>
    if req = Query (NewRTSP "10.0.0.7:554") "*" then
      Exchange.reply (statusReply "401 Unauthorized")
    else Exchange.reply (statusReply "200 OK")

/-- A server that answers 404 to every request. -/
def emptyServer : Peer :=
  answerBy fun _ => Exchange.reply (statusReply "404 Not Found")

/-- The network in which every address leads to `peer`. -/
def always (peer : Peer) : Network := fun _ => some peer

deriving instance DecidableEq for Except

/-! ## The wording of the reply format -/

/-- The fields of the first line of a reply: the bytes before its first line
feed, split on white space. -/
def firstLineFields (data : List Nat) : List (List Nat) :=
  Fields (data.takeWhile fun b => b ≠ 0x0A)

/-- The number a non-empty string of decimal digits writes. -/
def decimalValue (ds : List Nat) : Nat :=
  ds.foldl (fun acc c => acc * 10 + (c - 0x30)) 0

/-- The byte string `s` is a base-10 integer of value `n`: an optional sign
`+` or `-`, then one or more decimal digits, the value within the range of a
64-bit `int`. -/
def IsDecimal (s : List Nat) (n : Int) : Prop :=
  ∃ ds : List Nat, ds ≠ [] ∧ (∀ c ∈ ds, 0x30 ≤ c ∧ c ≤ 0x39) ∧
    ((s = ds ∨ s = 0x2B :: ds) ∧ n = (decimalValue ds : Int) ∨
      s = 0x2D :: ds ∧ n = -(decimalValue ds : Int)) ∧
    -(2 : Int) ^ 63 ≤ n ∧ n < (2 : Int) ^ 63

/-! ## The library functions -/

/-- A decoding step consumes at least one byte. -/
theorem DecodeRune_size_pos (s0 : Nat) (rest : List Nat) : 1 ≤ (DecodeRune (s0 :: rest)).2 := by
  rw [DecodeRune]
  by_cases h1 : s0 < 0x80
  · rw [if_pos h1]
  rw [if_neg h1]
  by_cases h2 : s0 < 0xC2 ∨ 0xF4 < s0
  · rw [if_pos h2]
  rw [if_neg h2]
  generalize (if s0 = 0xE0 then 0xA0 else if s0 = 0xF0 then 0x90 else 0x80) = lo
  generalize (if s0 = 0xED then 0x9F else if s0 = 0xF4 then 0x8F else 0xBF) = hi
  rcases rest with _ | ⟨s1, _ | ⟨s2, _ | ⟨s3, rest3⟩⟩⟩ <;> simp only [] <;>
    (try split_ifs) <;> simp

/-- The fuel `len(s)` is enough for the walk over `s`: more fuel gives the same
runes. -/
theorem rangeString_fuel (fuel : Nat) :
    ∀ (fuel' i : Nat) (s : List Nat), s.length ≤ fuel → s.length ≤ fuel' →
      rangeString fuel i s = rangeString fuel' i s := by
  induction fuel with
  | zero =>
    intro fuel' i s h _
    have hs : s = [] := List.length_eq_zero.1 (Nat.le_zero.1 h)
    subst hs
    cases fuel' <;> rfl
  | succ fuel ih =>
    intro fuel' i s h h'
    cases s with
    | nil => cases fuel' <;> rfl
    | cons s0 rest =>
      cases fuel' with
      | zero => simp at h'
      | succ fuel' =>
        simp only [rangeString]
        have hpos := DecodeRune_size_pos s0 rest
        have hlen : ((s0 :: rest).drop (DecodeRune (s0 :: rest)).2).length ≤ rest.length := by
          rw [List.length_drop, List.length_cons]
          omega
        simp only [List.length_cons] at h h'
        rw [ih fuel' _ _ (by omega) (by omega)]

/-- The fields of a status line. -/
theorem Fields_statusLine :
    Fields (bytesOf "RTSP/1.0 200 OK\r\n") = [bytesOf "RTSP/1.0", bytesOf "200", bytesOf "OK"] := by
  decide

/-- White space of more than one byte separates fields, and an ill-formed byte
does not: `a`, U+00A0, `b`, the lone byte `0xA0`, `c`. -/
theorem Fields_nonASCII :
    Fields [0x61, 0xC2, 0xA0, 0x62, 0xA0, 0x63] = [[0x61], [0x62, 0xA0, 0x63]] := by
  decide

/-! ## Auxiliary facts -/

theorem sprintf_root (address : String) :
    sprintf "rtsp://%s/" [Arg.str address] = "rtsp://" ++ address ++ "/" := by
  rfl

theorem sprintf_path (address path : String) :
    sprintf "rtsp://%s%s" [Arg.str address, Arg.str path] = "rtsp://" ++ address ++ path := by
  simp only [sprintf]
  apply String.ext
  simp [Sprintf]

theorem requests_append (xs ys : List Event) :
    requests (xs ++ ys) = requests xs ++ requests ys := by
  induction xs with
  | nil => rfl
  | cons e es ih => cases e <;> simp [requests, ih]

theorem emitted_append (xs ys : List Event) :
    emitted (xs ++ ys) = emitted xs ++ emitted ys := by
  induction xs with
  | nil => rfl
  | cons e es ih => cases e <;> simp [emitted, ih]

theorem chanOps_append (xs ys : List Event) :
    chanOps (xs ++ ys) = chanOps xs ++ chanOps ys := by
  induction xs with
  | nil => rfl
  | cons e es ih => cases e <;> simp [chanOps, ih]

theorem requests_map_request (f : String → String) (ps : List String) :
    requests (ps.map fun p => Event.request (f p)) = ps.map f := by
  induction ps with
  | nil => rfl
  | cons p ps ih => simp [requests, ih]

theorem emitted_map_request (f : String → String) (ps : List String) :
    emitted (ps.map fun p => Event.request (f p)) = [] := by
  induction ps with
  | nil => rfl
  | cons p ps ih => simp [emitted, ih]

theorem chanOps_map_request (f : String → String) (ps : List String) :
    chanOps (ps.map fun p => Event.request (f p)) = [] := by
  induction ps with
  | nil => rfl
  | cons p ps ih => simp [chanOps, ih]

/-- One step of the sweep, by the result of its request. -/
theorem sweep_cons (r : RTSP) (peer : Peer) (sent : List String) (path : String)
    (rest : List String) :
    sweep r { peer := peer, sent := sent } (path :: rest) =
      Event.request (Query r path) ::
        match (Request { peer := peer, sent := sent } (Query r path)) with
        | .error _ => []
        | .ok code =>
          if code = 401 then []
          else if code = 200 then [Event.send ("rtsp://" ++ r.Address ++ path)]
          else sweep r { peer := peer, sent := sent ++ [Query r path] } rest := by
  rw [sweep]
  cases h : (Request { peer := peer, sent := sent } (Query r path)) with
  | error e => rfl
  | ok code => simp only [sprintf_path, Conn.wrote]

/-- The body of `check`, by the results of its first two requests. -/
theorem checkBody_eq (r : RTSP) (peer : Peer) (paths : Option (List String)) :
    checkBody r { peer := peer, sent := [] } paths =
      Event.request (Query r "*") ::
        match optionsResult r peer with
        | .error _ => []
        | .ok _ =>
          Event.request (Query r "/") ::
            match rootResult r peer with
            | .error _ => []
            | .ok code =>
              if code = 401 then []
              else if code = 200 then [Event.send ("rtsp://" ++ r.Address ++ "/")]
              else
                match paths with
                | none => [Event.nilPanic]
                | some ps => sweep r { peer := peer, sent := [Query r "*", Query r "/"] } ps := by
  simp only [checkBody, optionsResult, rootResult]
  cases h : (Request { peer := peer, sent := [] } (Query r "*")) with
  | error e => rfl
  | ok c =>
    simp only [Conn.wrote, List.nil_append]
    cases h2 : (Request { peer := peer, sent := [Query r "*"] } (Query r "/")) with
    | error e => rfl
    | ok code => simp only [sprintf_root, List.singleton_append]

/-- A run of `check` whose dial succeeds. -/
theorem check_eq (r : RTSP) (net : Network) (paths : Option (List String)) (peer : Peer)
    (hd : net r.Address = some peer) :
    check r net paths =
      Event.dial r.Address ::
        (checkBody r { peer := peer, sent := [] } paths ++ [Event.closeConn, Event.closeChan]) := by
  simp only [check, hd]

theorem requests_check (r : RTSP) (net : Network) (paths : Option (List String)) (peer : Peer)
    (hd : net r.Address = some peer) :
    requests (check r net paths) = requests (checkBody r { peer := peer, sent := [] } paths) := by
  rw [check_eq r net paths peer hd]
  show requests (checkBody r { peer := peer, sent := [] } paths ++
    [Event.closeConn, Event.closeChan]) = _
  rw [requests_append]
  simp [requests]

theorem emitted_check (r : RTSP) (net : Network) (paths : Option (List String)) (peer : Peer)
    (hd : net r.Address = some peer) :
    emitted (check r net paths) = emitted (checkBody r { peer := peer, sent := [] } paths) := by
  rw [check_eq r net paths peer hd]
  show emitted (checkBody r { peer := peer, sent := [] } paths ++
    [Event.closeConn, Event.closeChan]) = _
  rw [emitted_append]
  simp [emitted]

theorem chanOps_check (r : RTSP) (net : Network) (paths : Option (List String)) (peer : Peer)
    (hd : net r.Address = some peer) :
    chanOps (check r net paths) =
      chanOps (checkBody r { peer := peer, sent := [] } paths) ++ [Event.closeChan] := by
  rw [check_eq r net paths peer hd]
  show chanOps (checkBody r { peer := peer, sent := [] } paths ++
    [Event.closeConn, Event.closeChan]) = _
  rw [chanOps_append]
  simp [chanOps]

/-- The body of `check` when the sweep is reached. -/
theorem checkBody_sweep (r : RTSP) (peer : Peer) (ps : List String) (c c1 : Int)
    (hopt : optionsResult r peer = .ok c) (hroot : rootResult r peer = .ok c1)
    (h200 : c1 ≠ 200) (h401 : c1 ≠ 401) :
    checkBody r { peer := peer, sent := [] } (some ps) =
      Event.request (Query r "*") :: Event.request (Query r "/") ::
        sweep r { peer := peer, sent := [Query r "*", Query r "/"] } ps := by
  rw [checkBody_eq, hopt, hroot]
  simp only [h200, h401, if_false]

theorem NewRTSP_Address (address : String) : (NewRTSP address).Address = address := rfl

/-- The text of a request of a session made by `NewRTSP`. -/
theorem Query_text (address path : String) :
    Query (NewRTSP address) path =
      (if path = "*" then "OPTIONS" else "DESCRIBE") ++ " " ++ path ++
        " RTSP/1.0\r\nCSeq: 0\r\nUser-Agent: LibVLC/3.0.0\r\nAccept: application/sdp\r\n\r\n" := by
  simp only [Query, NewRTSP, sprintf, RTSP_HDR]
  split_ifs <;> rfl

/-- A sweep in which no candidate answers 200 or 401, and no request fails,
sends one request per candidate and nothing on the channel. -/
theorem sweep_exhausted (r : RTSP) (peer : Peer) (ps : List String) :
    ∀ sent : List String,
      (∀ j, j < ps.length → ∃ c,
        (Request { peer := peer, sent := sent ++ (ps.take j).map (Query r) }
          (Query r (ps.getD j ""))) = .ok c ∧ c ≠ 200 ∧ c ≠ 401) →
      sweep r { peer := peer, sent := sent } ps = ps.map fun p => Event.request (Query r p) := by
  induction ps with
  | nil => intro sent _; rfl
  | cons p ps ih =>
    intro sent h
    obtain ⟨c, hc, h200, h401⟩ := h 0 (by simp)
    simp only [List.take_zero, List.map_nil, List.append_nil, List.getD_cons_zero] at hc
    rw [sweep_cons, hc]
    simp only [h200, h401, if_false, List.map_cons]
    rw [ih (sent ++ [Query r p])]
    intro j hj
    obtain ⟨c', hc', h'⟩ := h (j + 1) (by simpa using hj)
    refine ⟨c', ?_, h'⟩
    simpa using hc'

/-- A sweep whose candidate at position `i` is the first to answer 200, the
ones before it answering a status other than 200 and 401, stops there. -/
theorem sweep_found (r : RTSP) (peer : Peer) (ps : List String) :
    ∀ (sent : List String) (i : Nat), i < ps.length →
      (∀ j, j < i → ∃ c,
        (Request { peer := peer, sent := sent ++ (ps.take j).map (Query r) }
          (Query r (ps.getD j ""))) = .ok c ∧ c ≠ 200 ∧ c ≠ 401) →
      (Request { peer := peer, sent := sent ++ (ps.take i).map (Query r) }
          (Query r (ps.getD i ""))) = .ok 200 →
      sweep r { peer := peer, sent := sent } ps =
        ((ps.take (i + 1)).map fun p => Event.request (Query r p)) ++
          [Event.send ("rtsp://" ++ r.Address ++ ps.getD i "")] := by
  induction ps with
  | nil => intro sent i hi; simp at hi
  | cons p ps ih =>
    intro sent i hi hbefore hat
    cases i with
    | zero =>
      simp only [List.take_zero, List.map_nil, List.append_nil, List.getD_cons_zero] at hat
      rw [sweep_cons, hat]
      simp
    | succ i =>
      obtain ⟨c, hc, h200, h401⟩ := hbefore 0 (by simp)
      simp only [List.take_zero, List.map_nil, List.append_nil, List.getD_cons_zero] at hc
      rw [sweep_cons, hc]
      simp only [h200, h401, if_false]
      rw [ih (sent ++ [Query r p]) i (by simpa using hi)]
      · simp
      · intro j hj
        obtain ⟨c', hc', h'⟩ := hbefore (j + 1) (by omega)
        refine ⟨c', ?_, h'⟩
        simpa using hc'
      · simpa using hat

/-- A sweep sends at most one value. -/
theorem sweep_chanOps (r : RTSP) (peer : Peer) (ps : List String) :
    ∀ sent : List String,
      chanOps (sweep r { peer := peer, sent := sent } ps) = [] ∨
        ∃ v, chanOps (sweep r { peer := peer, sent := sent } ps) = [Event.send v] := by
  induction ps with
  | nil => intro sent; left; rfl
  | cons p ps ih =>
    intro sent
    rw [sweep_cons]
    cases (Request { peer := peer, sent := sent } (Query r p)) with
    | error e => left; rfl
    | ok code =>
      by_cases h401 : code = 401
      · left; simp [h401, chanOps]
      · by_cases h200 : code = 200
        · right; exact ⟨"rtsp://" ++ r.Address ++ p, by simp [h200, chanOps]⟩
        · simpa [h401, h200, chanOps] using ih (sent ++ [Query r p])

/-- Every request of a sweep is the `Query` of some path. -/
theorem sweep_requests_mem (r : RTSP) (peer : Peer) (ps : List String) :
    ∀ (sent : List String) (req : String),
      req ∈ requests (sweep r { peer := peer, sent := sent } ps) → ∃ path, req = Query r path := by
  induction ps with
  | nil => intro sent req h; simp [sweep, requests] at h
  | cons p ps ih =>
    intro sent req h
    rw [sweep_cons] at h
    simp only [requests, List.mem_cons] at h
    rcases h with h | h
    · exact ⟨p, h⟩
    · cases hres : (Request { peer := peer, sent := sent } (Query r p)) with
      | error e => simp [hres, requests] at h
      | ok code =>
        rw [hres] at h
        by_cases h401 : code = 401
        · simp [h401, requests] at h
        · by_cases h200 : code = 200
          · simp [h200, requests] at h
          · simp only [h401, h200, if_false] at h
            exact ih _ _ h

/-- In a sweep, a request answered 401 is the last one, and nothing is sent on
the channel. -/
theorem sweep_unauthorized (r : RTSP) (peer : Peer) (ps : List String) :
    ∀ (sent : List String) (k : Nat),
      k < (requests (sweep r { peer := peer, sent := sent } ps)).length →
      (Request { peer := peer,
                 sent := sent ++ (requests (sweep r { peer := peer, sent := sent } ps)).take k }
          ((requests (sweep r { peer := peer, sent := sent } ps)).getD k "")) = .ok 401 →
      (requests (sweep r { peer := peer, sent := sent } ps)).length = k + 1 ∧
        emitted (sweep r { peer := peer, sent := sent } ps) = [] := by
  induction ps with
  | nil => intro sent k hk; simp [sweep, requests] at hk
  | cons p ps ih =>
    intro sent k
    rw [sweep_cons]
    cases hres : (Request { peer := peer, sent := sent } (Query r p)) with
    | error e =>
      intro hk
      simp only [requests, List.length_cons, List.length_nil] at hk
      have : k = 0 := by omega
      subst this
      intro _
      simp [requests, emitted]
    | ok code =>
      by_cases h401 : code = 401
      · intro hk
        simp only [h401, if_true, requests, List.length_cons, List.length_nil] at hk
        have : k = 0 := by omega
        subst this
        intro _
        simp [h401, requests, emitted]
      · by_cases h200 : code = 200
        · intro hk
          simp only [h401, h200, if_true, if_false, requests, List.length_cons,
            List.length_nil] at hk
          have : k = 0 := by omega
          subst this
          intro hat
          simp only [h401, h200, if_true, if_false, requests, List.take_zero, List.append_nil,
            List.getD_cons_zero] at hat
          rw [hres] at hat
          simp [h200] at hat
        · simp only [h401, h200, if_false, requests, emitted, List.length_cons]
          cases k with
          | zero =>
            intro _ hat
            simp only [List.take_zero, List.append_nil, List.getD_cons_zero] at hat
            rw [hres] at hat
            simp at hat
            exact absurd hat h401
          | succ k =>
            intro hk hat
            have := ih (sent ++ [Query r p]) k (by omega) (by simpa using hat)
            exact ⟨by omega, this.2⟩

/-! ## `Atoi` -/

theorem foldl_digit_le (ds : List Nat) :
    ∀ a : Nat, a ≤ ds.foldl (fun acc c => acc * 10 + (c - 0x30)) a := by
  induction ds with
  | nil => intro a; exact Nat.le_refl a
  | cons c cs ih =>
    intro a
    simp only [List.foldl_cons]
    have := ih (a * 10 + (c - 0x30))
    omega

/-- The digit loop returns a value exactly on a string of digits whose value,
continued from `n`, fits in 64 bits. -/
theorem parseUintLoop_ok (ds : List Nat) :
    ∀ (n m : Nat), n < 2 ^ 64 →
      (parseUintLoop ds n = .ok m ↔
        (∀ c ∈ ds, 0x30 ≤ c ∧ c ≤ 0x39) ∧
          m = ds.foldl (fun acc c => acc * 10 + (c - 0x30)) n ∧ m < 2 ^ 64) := by
  induction ds with
  | nil =>
    intro n m hn
    simp only [parseUintLoop, List.foldl_nil, List.not_mem_nil, false_implies, implies_true,
      true_and, Except.ok.injEq]
    constructor
    · rintro rfl; exact ⟨rfl, hn⟩
    · rintro ⟨rfl, _⟩; rfl
  | cons c cs ih =>
    intro n m hn
    rw [parseUintLoop]
    have hmono := foldl_digit_le cs (n * 10 + (c - 0x30))
    simp only [List.foldl_cons, List.mem_cons, forall_eq_or_imp]
    by_cases hc : 0x30 ≤ c ∧ c ≤ 0x39
    · simp only [hc, and_self, if_true, true_and]
      by_cases hcut : n ≥ (2 ^ 64 - 1) / 10 + 1
      · simp only [hcut, if_true]
        constructor
        · intro h; cases h
        · rintro ⟨_, rfl, hlt⟩
          norm_num at hcut hlt hmono
          omega
      · simp only [hcut, if_false]
        norm_num at hcut
        have h10 : n * 10 % 2 ^ 64 = n * 10 := Nat.mod_eq_of_lt (by norm_num; omega)
        rw [h10]
        by_cases hov : n * 10 + (c - 0x30) < 2 ^ 64
        · have h1 : (n * 10 + (c - 0x30)) % 2 ^ 64 = n * 10 + (c - 0x30) :=
            Nat.mod_eq_of_lt hov
          rw [h1]
          have hno : ¬ (n * 10 + (c - 0x30) < n * 10 ∨ n * 10 + (c - 0x30) > 2 ^ 64 - 1) := by
            norm_num at hov ⊢
            omega
          simp only [hno, if_false]
          exact ih _ m hov
        · have hbad : (n * 10 + (c - 0x30)) % 2 ^ 64 < n * 10 ∨
              (n * 10 + (c - 0x30)) % 2 ^ 64 > 2 ^ 64 - 1 := by
            left
            norm_num at hov ⊢
            omega
          simp only [hbad, if_true]
          constructor
          · intro h; cases h
          · rintro ⟨_, rfl, hlt⟩
            norm_num at hov hlt hmono
            omega
    · simp only [hc, if_false, false_and]
      constructor
      · intro h; cases h
      · intro h; exact h.elim

theorem ParseUint_ok (ds : List Nat) (m : Nat) :
    ParseUint ds = .ok m ↔
      ds ≠ [] ∧ (∀ c ∈ ds, 0x30 ≤ c ∧ c ≤ 0x39) ∧ m = decimalValue ds ∧ m < 2 ^ 64 := by
  unfold ParseUint decimalValue
  by_cases h : ds = []
  · simp [h]
  · simp only [h, if_false, ne_eq, not_false_eq_true, true_and]
    exact parseUintLoop_ok ds 0 m (by norm_num)

theorem ParseInt_cons (s0 : Nat) (rest : List Nat) (n : Int) :
    ParseInt (s0 :: rest) = .ok n ↔
      ∃ un : Nat, ParseUint (if s0 = 0x2B ∨ s0 = 0x2D then rest else s0 :: rest) = .ok un ∧
        ((s0 ≠ 0x2D ∧ un < 2 ^ 63 ∧ n = (un : Int)) ∨
          (s0 = 0x2D ∧ un ≤ 2 ^ 63 ∧ n = -(un : Int))) := by
  simp only [ParseInt]
  cases ParseUint (if s0 = 0x2B ∨ s0 = 0x2D then rest else s0 :: rest) with
  | error e =>
    constructor
    · intro h; cases h
    · rintro ⟨un, h, _⟩; cases h
  | ok un =>
    simp only [Except.ok.injEq, exists_eq_left']
    by_cases hneg : s0 = 0x2D
    · by_cases hr : un > 2 ^ 63
      · simp only [hneg, hr, not_true_eq_false, false_and, if_false, true_and, and_self, if_true,
          ne_eq, or_false, false_or]
        constructor
        · intro h; cases h
        · rintro ⟨h, _⟩; omega
      · simp only [hneg, hr, not_true_eq_false, false_and, if_false, true_and, and_false,
          ne_eq, false_or, Except.ok.injEq]
        constructor
        · rintro rfl; exact ⟨by omega, rfl⟩
        · rintro ⟨_, rfl⟩; rfl
    · by_cases hr : un ≥ 2 ^ 63
      · simp only [hneg, hr, not_false_eq_true, and_self, if_true, ne_eq, false_and, or_false]
        constructor
        · intro h; cases h
        · rintro ⟨_, h, _⟩; omega
      · simp only [hneg, hr, not_false_eq_true, and_false, false_and, if_false, ne_eq, true_and,
          or_false, Except.ok.injEq]
        constructor
        · rintro rfl; exact ⟨by omega, rfl⟩
        · rintro ⟨_, rfl⟩; rfl

/-- `ParseInt` returns `n` exactly on the base-10 texts of `n`. -/
theorem ParseInt_ok (s : List Nat) (n : Int) : ParseInt s = .ok n ↔ IsDecimal s n := by
  cases s with
  | nil =>
    simp only [ParseInt, IsDecimal]
    constructor
    · intro h; cases h
    · rintro ⟨ds, hne, _, h, _⟩
      rcases h with ⟨h | h, _⟩ | ⟨h, _⟩
      · exact absurd h.symm hne
      · cases h
      · cases h
  | cons s0 rest =>
    rw [ParseInt_cons]
    simp only [ParseUint_ok, IsDecimal]
    by_cases hplus : s0 = 0x2B
    · subst hplus
      simp only [true_or, if_true]
      constructor
      · rintro ⟨un, ⟨hne, hdig, rfl, hlt⟩, h⟩
        rcases h with ⟨_, h63, rfl⟩ | ⟨h, _⟩
        · exact ⟨rest, hne, hdig, Or.inl ⟨Or.inr rfl, rfl⟩, by omega, by omega⟩
        · omega
      · rintro ⟨ds, hne, hdig, h, hlo, hhi⟩
        rcases h with ⟨h | h, rfl⟩ | ⟨h, _⟩
        · have := hdig 0x2B (by rw [← h]; simp)
          omega
        · obtain rfl : rest = ds := by simpa using h
          exact ⟨decimalValue rest, ⟨hne, hdig, rfl, by omega⟩, Or.inl ⟨by omega, by omega, rfl⟩⟩
        · simp at h
    · by_cases hminus : s0 = 0x2D
      · subst hminus
        simp only [or_true, if_true]
        constructor
        · rintro ⟨un, ⟨hne, hdig, rfl, hlt⟩, h⟩
          rcases h with ⟨h, _⟩ | ⟨_, h63, rfl⟩
          · omega
          · exact ⟨rest, hne, hdig, Or.inr ⟨rfl, rfl⟩, by omega, by omega⟩
        · rintro ⟨ds, hne, hdig, h, hlo, hhi⟩
          rcases h with ⟨h | h, _⟩ | ⟨h, rfl⟩
          · have := hdig 0x2D (by rw [← h]; simp)
            omega
          · simp at h
          · obtain rfl : rest = ds := by simpa using h
            exact ⟨decimalValue rest, ⟨hne, hdig, rfl, by omega⟩,
              Or.inr ⟨trivial, by omega, rfl⟩⟩
      · simp only [hplus, hminus, or_self, if_false]
        constructor
        · rintro ⟨un, ⟨hne, hdig, rfl, hlt⟩, h⟩
          rcases h with ⟨_, h63, rfl⟩ | ⟨h, _⟩
          · exact ⟨s0 :: rest, hne, hdig, Or.inl ⟨Or.inl rfl, rfl⟩, by omega, by omega⟩
          · exact h.elim
        · rintro ⟨ds, hne, hdig, h, hlo, hhi⟩
          rcases h with ⟨h | h, rfl⟩ | ⟨h, _⟩
          · subst h
            exact ⟨decimalValue (s0 :: rest), ⟨hne, hdig, rfl, by omega⟩,
              Or.inl ⟨hminus, by omega, rfl⟩⟩
          · exact absurd (by simpa using h : s0 = 0x2B ∧ rest = ds).1 hplus
          · exact absurd (by simpa using h : s0 = 0x2D ∧ rest = ds).1 hminus

/-- `Atoi` returns `n`, with no error, exactly on the base-10 texts of `n`. -/
theorem Atoi_ok (s : List Nat) (n : Int) : Atoi s = .ok n ↔ IsDecimal s n := by
  rw [← ParseInt_ok]
  unfold Atoi
  cases ParseInt s with
  | error e =>
    constructor
    · intro h; cases h
    · intro h; cases h
  | ok m => simp

/-- The error of `Atoi`, when it has one, is a `NumError` that holds the
rejected text. -/
theorem Atoi_error (s : List Nat) (e : Error) (h : Atoi s = .error e) :
    ∃ cause : NumErr, e = Error.numError s cause := by
  unfold Atoi at h
  cases hp : ParseInt s with
  | error cause =>
    rw [hp] at h
    exact ⟨cause, by injection h with h; exact h.symm⟩
  | ok m => rw [hp] at h; cases h

/-! ## The probe -/

/-- C1: when the connection is established, `OPTIONS *` gets a parseable reply
and `DESCRIBE /` returns 200, the probe emits exactly one value, the text
`rtsp://` followed by the address and `/`, and sends exactly two requests,
`OPTIONS *` then `DESCRIBE /`, whatever the candidate list. -/
theorem check_root_found (address : String) (net : Network) (paths : Option (List String))
    (peer : Peer) (c : Int)
    (hdial : net address = some peer)
    (hopt : optionsResult (NewRTSP address) peer = .ok c)
    (hroot : rootResult (NewRTSP address) peer = .ok 200) :
    emitted (check (NewRTSP address) net paths) = ["rtsp://" ++ address ++ "/"] ∧
    requests (check (NewRTSP address) net paths) =
      [Query (NewRTSP address) "*", Query (NewRTSP address) "/"] ∧
    chanOps (check (NewRTSP address) net paths) =
      [Event.send ("rtsp://" ++ address ++ "/"), Event.closeChan] := by
  rw [check_eq _ _ _ peer hdial, checkBody_eq, hopt, hroot]
  simp [emitted, requests, chanOps, NewRTSP_Address]

/-- C3, amended: when the connection is established, no request fails, and the
root and every candidate return a status other than 200 and 401, the probe
emits no value and sends exactly `2 + len(candidateList)` requests: `OPTIONS *`,
`DESCRIBE /`, then one request per candidate in list order, which is the
`DESCRIBE` of the candidate for every candidate other than the string `*`, and
`OPTIONS *` for a candidate `*`. -/
theorem check_exhausted (address : String) (net : Network) (paths : List String)
    (peer : Peer) (c c1 : Int)
    (hdial : net address = some peer)
    (hopt : optionsResult (NewRTSP address) peer = .ok c)
    (hroot : rootResult (NewRTSP address) peer = .ok c1) (h200 : c1 ≠ 200) (h401 : c1 ≠ 401)
    (hcand : ∀ j, j < paths.length → ∃ cj,
      candidateResult (NewRTSP address) peer paths j = .ok cj ∧ cj ≠ 200 ∧ cj ≠ 401) :
    emitted (check (NewRTSP address) net (some paths)) = [] ∧
    requests (check (NewRTSP address) net (some paths)) =
      Query (NewRTSP address) "*" :: Query (NewRTSP address) "/" ::
        paths.map (Query (NewRTSP address)) ∧
    (requests (check (NewRTSP address) net (some paths))).length = 2 + paths.length ∧
    chanOps (check (NewRTSP address) net (some paths)) = [Event.closeChan] ∧
    requests (check (NewRTSP address) net (some paths)) =
      "OPTIONS * RTSP/1.0\r\nCSeq: 0\r\nUser-Agent: LibVLC/3.0.0\r\nAccept: application/sdp\r\n\r\n" ::
      "DESCRIBE / RTSP/1.0\r\nCSeq: 0\r\nUser-Agent: LibVLC/3.0.0\r\nAccept: application/sdp\r\n\r\n" ::
      paths.map fun p =>
        (if p = "*" then "OPTIONS" else "DESCRIBE") ++ " " ++ p ++
          " RTSP/1.0\r\nCSeq: 0\r\nUser-Agent: LibVLC/3.0.0\r\nAccept: application/sdp\r\n\r\n" := by
  have hs := sweep_exhausted (NewRTSP address) peer paths
    [Query (NewRTSP address) "*", Query (NewRTSP address) "/"] (by
      intro j hj
      simpa [candidateResult] using hcand j hj)
  have hreq : requests (check (NewRTSP address) net (some paths)) =
      Query (NewRTSP address) "*" :: Query (NewRTSP address) "/" ::
        paths.map (Query (NewRTSP address)) := by
    rw [requests_check _ _ _ peer hdial, checkBody_sweep _ _ _ c c1 hopt hroot h200 h401, hs]
    simp only [requests, requests_map_request]
  refine ⟨?_, hreq, ?_, ?_, ?_⟩
  · rw [emitted_check _ _ _ peer hdial, checkBody_sweep _ _ _ c c1 hopt hroot h200 h401, hs]
    simp only [emitted, emitted_map_request]
  · rw [hreq]
    simp only [List.length_cons, List.length_map]
    omega
  · rw [chanOps_check _ _ _ peer hdial, checkBody_sweep _ _ _ c c1 hopt hroot h200 h401, hs]
    simp only [chanOps, chanOps_map_request, List.nil_append]
  · rw [hreq]
    have hq : Query (NewRTSP address) = fun p =>
        (if p = "*" then "OPTIONS" else "DESCRIBE") ++ " " ++ p ++
          " RTSP/1.0\r\nCSeq: 0\r\nUser-Agent: LibVLC/3.0.0\r\nAccept: application/sdp\r\n\r\n" :=
      funext (Query_text address)
    rw [hq]
    rfl

/-- C4: when `OPTIONS *` succeeds and `DESCRIBE /` returns 401, the probe
emits no value, its only channel operation is the close, and no `DESCRIBE` for
a candidate is sent: the requests are `OPTIONS *` and `DESCRIBE /`. -/
theorem check_root_unauthorized (address : String) (net : Network)
    (paths : Option (List String)) (peer : Peer) (c : Int)
    (hdial : net address = some peer)
    (hopt : optionsResult (NewRTSP address) peer = .ok c)
    (hroot : rootResult (NewRTSP address) peer = .ok 401) :
    emitted (check (NewRTSP address) net paths) = [] ∧
    chanOps (check (NewRTSP address) net paths) = [Event.closeChan] ∧
    requests (check (NewRTSP address) net paths) =
      [Query (NewRTSP address) "*", Query (NewRTSP address) "/"] := by
  rw [check_eq _ _ _ peer hdial, checkBody_eq, hopt, hroot]
  simp [emitted, requests, chanOps]

/-- C6: on every run of `check` that comes to an end, whatever the network
does, the operations on the result channel are a single close, or one send
followed by a single close. -/
theorem check_chanOps (r : RTSP) (net : Network) (paths : Option (List String)) :
    chanOps (check r net paths) = [Event.closeChan] ∨
      ∃ v, chanOps (check r net paths) = [Event.send v, Event.closeChan] := by
  unfold check
  cases hd : net r.Address with
  | none => left; rfl
  | some peer =>
    simp only [checkBody_eq]
    cases optionsResult r peer with
    | error e => left; simp [chanOps]
    | ok c =>
      cases rootResult r peer with
      | error e => left; simp [chanOps]
      | ok code =>
        by_cases h401 : code = 401
        · left; simp [h401, chanOps]
        · by_cases h200 : code = 200
          · right; exact ⟨"rtsp://" ++ r.Address ++ "/", by simp [h200, chanOps]⟩
          · cases paths with
            | none => left; simp [h401, h200, chanOps]
            | some ps =>
              rcases sweep_chanOps r peer ps [Query r "*", Query r "/"] with h | ⟨v, h⟩
              · left; simp [h401, h200, chanOps, chanOps_append, h]
              · right; exact ⟨v, by simp [h401, h200, chanOps, chanOps_append, h]⟩

/-- C2, amended: when the connection is established, `OPTIONS *` succeeds,
`DESCRIBE /` returns a status other than 200 and 401, every candidate before
position `i` returns a status other than 200 and 401, and the candidate at
position `i` returns 200, the probe emits exactly one value, `rtsp://` followed
by the address and that candidate, and its requests end with the one for
position `i`. -/
theorem check_candidate_found (address : String) (net : Network) (paths : List String)
    (peer : Peer) (c c1 : Int) (i : Nat)
    (hdial : net address = some peer)
    (hopt : optionsResult (NewRTSP address) peer = .ok c)
    (hroot : rootResult (NewRTSP address) peer = .ok c1) (h200 : c1 ≠ 200) (h401 : c1 ≠ 401)
    (hi : i < paths.length)
    (hbefore : ∀ j, j < i → ∃ cj,
      candidateResult (NewRTSP address) peer paths j = .ok cj ∧ cj ≠ 200 ∧ cj ≠ 401)
    (hat : candidateResult (NewRTSP address) peer paths i = .ok 200) :
    emitted (check (NewRTSP address) net (some paths)) =
      ["rtsp://" ++ address ++ paths.getD i ""] ∧
    requests (check (NewRTSP address) net (some paths)) =
      Query (NewRTSP address) "*" :: Query (NewRTSP address) "/" ::
        (paths.take (i + 1)).map (Query (NewRTSP address)) ∧
    chanOps (check (NewRTSP address) net (some paths)) =
      [Event.send ("rtsp://" ++ address ++ paths.getD i ""), Event.closeChan] := by
  have hs := sweep_found (NewRTSP address) peer paths
    [Query (NewRTSP address) "*", Query (NewRTSP address) "/"] i hi
    (by intro j hj; simpa [candidateResult] using hbefore j hj)
    (by simpa [candidateResult] using hat)
  rw [emitted_check _ _ _ peer hdial, requests_check _ _ _ peer hdial,
    chanOps_check _ _ _ peer hdial, checkBody_sweep _ _ _ c c1 hopt hroot h200 h401, hs]
  refine ⟨?_, ?_, ?_⟩
  · simp only [emitted, emitted_append, emitted_map_request, List.nil_append, NewRTSP_Address]
  · simp only [requests, requests_append, requests_map_request, List.append_nil]
  · simp only [chanOps, chanOps_append, chanOps_map_request, List.nil_append, NewRTSP_Address,
      List.singleton_append]

/-- In a probe, a request other than `OPTIONS *` whose reply has status 401 is
the last request, and no value is emitted. -/
theorem check_describe_unauthorized (address : String) (net : Network)
    (paths : Option (List String)) (peer : Peer) (k : Nat)
    (hdial : net address = some peer)
    (hk1 : 1 ≤ k)
    (hk : k < (requests (check (NewRTSP address) net paths)).length)
    (h401 : resultAt peer (requests (check (NewRTSP address) net paths)) k = .ok 401) :
    (requests (check (NewRTSP address) net paths)).length = k + 1 ∧
      emitted (check (NewRTSP address) net paths) = [] := by
  rw [requests_check _ _ _ peer hdial] at hk h401 ⊢
  rw [emitted_check _ _ _ peer hdial]
  have hroot1 : ∀ tail : List String,
      resultAt peer (Query (NewRTSP address) "*" :: Query (NewRTSP address) "/" :: tail) 1 =
        rootResult (NewRTSP address) peer := by
    intro tail; simp [resultAt, rootResult]
  rw [checkBody_eq] at hk h401 ⊢
  cases hopt : optionsResult (NewRTSP address) peer with
  | error e =>
    rw [hopt] at hk
    simp only [requests, List.length_cons, List.length_nil] at hk
    omega
  | ok c =>
    rw [hopt] at hk h401
    cases hroot : rootResult (NewRTSP address) peer with
    | error e =>
      rw [hroot] at hk h401
      simp only [requests, List.length_cons, List.length_nil] at hk h401
      have hk' : k = 1 := by omega
      subst hk'
      rw [hroot1, hroot] at h401
      simp at h401
    | ok code =>
      rw [hroot] at hk h401
      by_cases hc401 : code = 401
      · simp only [hc401, if_true, requests, emitted, List.length_cons, List.length_nil] at hk ⊢
        exact ⟨by omega, trivial⟩
      · by_cases hc200 : code = 200
        · simp only [hc401, hc200, if_true, if_false, requests, List.length_cons,
            List.length_nil] at hk h401
          have hk' : k = 1 := by omega
          subst hk'
          rw [hroot1, hroot] at h401
          simp [hc200] at h401
        · simp only [hc401, hc200, if_false] at hk h401 ⊢
          cases paths with
          | none =>
            simp only [requests, List.length_cons, List.length_nil] at hk h401
            have hk' : k = 1 := by omega
            subst hk'
            rw [hroot1, hroot] at h401
            simp at h401
            exact absurd h401 hc401
          | some ps =>
            simp only [requests, emitted, List.length_cons] at hk h401 ⊢
            obtain ⟨k', rfl⟩ : ∃ k', k = k' + 1 := ⟨k - 1, by omega⟩
            cases k' with
            | zero =>
              rw [hroot1, hroot] at h401
              simp at h401
              exact absurd h401 hc401
            | succ k' =>
              have := sweep_unauthorized (NewRTSP address) peer ps
                [Query (NewRTSP address) "*", Query (NewRTSP address) "/"] k' (by omega)
                (by simpa [resultAt] using h401)
              exact ⟨by omega, this.2⟩

/-- C5, amended: in every probe, a request other than `OPTIONS *` (the
`DESCRIBE /` or the `DESCRIBE` of a candidate) whose reply has status 401 is the
last request of the probe, and the probe emits no value. The status of the reply
to `OPTIONS *` is not inspected: an error of that request ends the probe there,
with no further request and no value, and after a reply of any status `c`, 401
included, the probe sends `DESCRIBE /` and goes on by the result of that request
alone. -/
theorem check_unauthorized (address : String) (net : Network) (paths : Option (List String))
    (peer : Peer) (hdial : net address = some peer) :
    (∀ k : Nat, 1 ≤ k →
      k < (requests (check (NewRTSP address) net paths)).length →
      resultAt peer (requests (check (NewRTSP address) net paths)) k = .ok 401 →
      (requests (check (NewRTSP address) net paths)).length = k + 1 ∧
        emitted (check (NewRTSP address) net paths) = []) ∧
    (∀ e : Error, optionsResult (NewRTSP address) peer = .error e →
      check (NewRTSP address) net paths =
        [Event.dial address, Event.request (Query (NewRTSP address) "*"),
          Event.closeConn, Event.closeChan]) ∧
    (∀ c : Int, optionsResult (NewRTSP address) peer = .ok c →
      check (NewRTSP address) net paths =
        Event.dial address :: Event.request (Query (NewRTSP address) "*") ::
          Event.request (Query (NewRTSP address) "/") ::
            ((match rootResult (NewRTSP address) peer with
              | .error _ => []
              | .ok code =>
                if code = 401 then []
                else if code = 200 then [Event.send ("rtsp://" ++ address ++ "/")]
                else
                  match paths with
                  | none => [Event.nilPanic]
                  | some ps =>
                    sweep (NewRTSP address)
                      { peer := peer,
                        sent := [Query (NewRTSP address) "*", Query (NewRTSP address) "/"] }
                      ps) ++ [Event.closeConn, Event.closeChan])) := by
  refine ⟨?_, ?_, ?_⟩
  · intro k hk1 hk h401
    exact check_describe_unauthorized address net paths peer k hdial hk1 hk h401
  · intro e he
    rw [check_eq _ _ _ peer hdial, checkBody_eq, he]
    rfl
  · intro c hc
    rw [check_eq _ _ _ peer hdial, checkBody_eq, hc]
    rfl

/-- C7: for a session made by `NewRTSP`, `Query(path)` is the request text with
method `OPTIONS` for the path `*`, `DESCRIBE` for any other path, and `CSeq: 0`;
and every request a probe of such a session sends is such a text. -/
theorem Query_NewRTSP :
    (∀ address path : String,
      Query (NewRTSP address) path =
        (if path = "*" then "OPTIONS" else "DESCRIBE") ++ " " ++ path ++
          " RTSP/1.0\r\nCSeq: 0\r\nUser-Agent: LibVLC/3.0.0\r\nAccept: application/sdp\r\n\r\n") ∧
    (∀ (address : String) (net : Network) (paths : Option (List String)) (req : String),
      req ∈ requests (check (NewRTSP address) net paths) →
      ∃ path : String,
        req = (if path = "*" then "OPTIONS" else "DESCRIBE") ++ " " ++ path ++
          " RTSP/1.0\r\nCSeq: 0\r\nUser-Agent: LibVLC/3.0.0\r\nAccept: application/sdp\r\n\r\n") := by
  have hq : ∀ address path : String,
      Query (NewRTSP address) path =
        (if path = "*" then "OPTIONS" else "DESCRIBE") ++ " " ++ path ++
          " RTSP/1.0\r\nCSeq: 0\r\nUser-Agent: LibVLC/3.0.0\r\nAccept: application/sdp\r\n\r\n" := by
    intro address path
    simp only [Query, NewRTSP, sprintf, RTSP_HDR]
    split_ifs <;> rfl
  refine ⟨hq, ?_⟩
  intro address net paths req hreq
  suffices h : ∃ path, req = Query (NewRTSP address) path by
    obtain ⟨path, hp⟩ := h
    exact ⟨path, by rw [hp, hq]⟩
  cases hd : net (NewRTSP address).Address with
  | none => simp [check, hd, requests] at hreq
  | some peer =>
    rw [requests_check _ _ _ peer hd, checkBody_eq] at hreq
    simp only [requests] at hreq
    rcases List.mem_cons.1 hreq with h | h
    · exact ⟨"*", h⟩
    · cases hopt : optionsResult (NewRTSP address) peer with
      | error e => simp [hopt, requests] at h
      | ok c =>
        simp only [hopt, requests] at h
        rcases List.mem_cons.1 h with h | h
        · exact ⟨"/", h⟩
        · cases hroot : rootResult (NewRTSP address) peer with
          | error e => simp [hroot, requests] at h
          | ok code =>
            simp only [hroot] at h
            by_cases hc401 : code = 401
            · simp [hc401, requests] at h
            · by_cases hc200 : code = 200
              · simp [hc200, requests] at h
              · simp only [hc401, hc200, if_false] at h
                cases paths with
                | none => simp [requests] at h
                | some ps => exact sweep_requests_mem _ _ _ _ _ h

/-! ## `Request` -/

/-- C8, amended: when `Request` reads a reply without a write or read error,
it returns the status `n` with no error exactly when the whole read buffer (the
reply, every line of it, and the zero bytes after it), split on white space, has
at least 3 fields, the first begins with `RTSP` and the second is a base-10
integer of value `n`; with fewer than 3 fields or a first field without the
prefix it fails with the `Bad response` error; with a second field that is not a
base-10 integer it fails with the `NumError` of `Atoi`. -/
theorem Request_parse (conn : Conn) (req : String) (data : List Nat)
    (h : conn.peer (conn.sent ++ [req]) = Exchange.reply data) :
    (∀ n : Int, (Request conn req) = .ok n ↔
      2 < (Fields (readBuffer data)).length ∧
        HasPrefix ((Fields (readBuffer data)).getD 0 []) (bytesOf "RTSP") = true ∧
        IsDecimal ((Fields (readBuffer data)).getD 1 []) n) ∧
    ((Fields (readBuffer data)).length ≤ 2 ∨
        HasPrefix ((Fields (readBuffer data)).getD 0 []) (bytesOf "RTSP") = false →
      (Request conn req) = .error Error.badResponse) ∧
    (2 < (Fields (readBuffer data)).length →
      HasPrefix ((Fields (readBuffer data)).getD 0 []) (bytesOf "RTSP") = true →
      (∀ n : Int, ¬ IsDecimal ((Fields (readBuffer data)).getD 1 []) n) →
      ∃ cause : NumErr, (Request conn req) =
        .error (Error.numError ((Fields (readBuffer data)).getD 1 []) cause)) := by
  have hreq : (Request conn req) =
      if 2 < (Fields (readBuffer data)).length ∧
          HasPrefix ((Fields (readBuffer data)).getD 0 []) (bytesOf "RTSP") = true then
        Atoi ((Fields (readBuffer data)).getD 1 [])
      else .error Error.badResponse := by
    simp only [Request, h]
  rw [hreq]
  refine ⟨?_, ?_, ?_⟩
  · intro n
    by_cases hc : 2 < (Fields (readBuffer data)).length ∧
        HasPrefix ((Fields (readBuffer data)).getD 0 []) (bytesOf "RTSP") = true
    · rw [if_pos hc, Atoi_ok]
      exact ⟨fun hd => ⟨hc.1, hc.2, hd⟩, fun hd => hd.2.2⟩
    · rw [if_neg hc]
      constructor
      · intro hbad; cases hbad
      · intro hd; exact absurd ⟨hd.1, hd.2.1⟩ hc
  · intro hbad
    have hc : ¬ (2 < (Fields (readBuffer data)).length ∧
        HasPrefix ((Fields (readBuffer data)).getD 0 []) (bytesOf "RTSP") = true) := by
      rintro ⟨h1, h2⟩
      rcases hbad with hbad | hbad
      · omega
      · rw [h2] at hbad; cases hbad
    rw [if_neg hc]
  · intro h1 h2 hnot
    rw [if_pos ⟨h1, h2⟩]
    cases ha : Atoi ((Fields (readBuffer data)).getD 1 []) with
    | ok n => exact absurd ((Atoi_ok _ n).1 ha) (hnot n)
    | error e =>
      obtain ⟨cause, rfl⟩ := Atoi_error _ e ha
      exact ⟨cause, rfl⟩

/-! ## `RunCommand` -/

theorem bufLen_eq_zero (s : String) : bufLen s = 0 ↔ s = "" := by
  unfold bufLen
  constructor
  · intro h
    rcases s with ⟨cs⟩
    cases cs with
    | nil => rfl
    | cons c cs =>
      simp only [String.utf8ByteSize, String.utf8ByteSize.go] at h
      have := Char.utf8Size_pos c
      omega
  · rintro rfl
    rfl

/-- C9: when `RunCommand` receives the exit result first, its reports are, in
this order: the failure notice if and only if the result is an error and the
flags have `ERR`; the captured standard-out if and only if the flags have
`INFO` and it is non-empty; the captured standard-error if and only if the flags
have `ERR` and it is non-empty. With a nil exit result and a non-empty
standard-out, the output is reported exactly when `INFO` is set. -/
theorem RunCommand_exited (goos command : String) (started : Bool) (err : Option String)
    (stdout stderr : String) (flags : Flags) :
    reports (RunCommand goos command started (Race.exited err) stdout stderr flags) =
      (match err with
        | some msg =>
          if flags.Has ERR then [Effect.eprintln ["[W:CB:E]", "'" ++ command ++ "'", msg]]
          else []
        | none => []) ++
      (if flags.Has INFO ∧ stdout ≠ "" then [Effect.print stdout] else []) ++
      (if flags.Has ERR ∧ stderr ≠ "" then [Effect.eprintf "[i:CB:err] %s" stderr]
        else []) ∧
    (stdout ≠ "" →
      (Effect.print stdout ∈
          reports (RunCommand goos command started (Race.exited none) stdout stderr flags) ↔
        flags.Has INFO = true)) := by
  have hmain : ∀ e : Option String,
      reports (RunCommand goos command started (Race.exited e) stdout stderr flags) =
        (match e with
          | some msg =>
            if flags.Has ERR then [Effect.eprintln ["[W:CB:E]", "'" ++ command ++ "'", msg]]
            else []
          | none => []) ++
        (if flags.Has INFO ∧ stdout ≠ "" then [Effect.print stdout] else []) ++
        (if flags.Has ERR ∧ stderr ≠ "" then [Effect.eprintf "[i:CB:err] %s" stderr]
          else []) := by
    intro e
    simp only [RunCommand, ne_eq, bufLen_eq_zero]
    cases e <;> cases flags.Has ERR <;> cases flags.Has INFO <;>
      by_cases h1 : stdout = "" <;> by_cases h2 : stderr = "" <;>
      simp [reports, h1, h2]
  refine ⟨hmain err, ?_⟩
  intro hne
  rw [hmain none]
  cases flags.Has ERR <;> cases flags.Has INFO <;> by_cases h2 : stderr = "" <;>
    simp [hne, h2]

/-- The timeout case of `RunCommand` with a started process: the process is
killed, and the reports are the one timeout notice if the flags have `WARN` and
nothing otherwise; the run is the same whatever the two buffers hold, and the
same for any two flag values that agree on `WARN`. -/
theorem RunCommand_timeout (goos command stdout stderr : String) (flags : Flags) :
    Effect.kill ∈ RunCommand goos command true Race.timeout stdout stderr flags ∧
    reports (RunCommand goos command true Race.timeout stdout stderr flags) =
      (if flags.Has WARN then [Effect.eprintln ["[W:CB:timeout]", "'" ++ command ++ "'"]]
        else []) ∧
    (∀ stdout' stderr' : String,
      RunCommand goos command true Race.timeout stdout' stderr' flags =
        RunCommand goos command true Race.timeout stdout stderr flags) ∧
    (∀ flags' : Flags, flags'.Has WARN = flags.Has WARN →
      RunCommand goos command true Race.timeout stdout stderr flags' =
        RunCommand goos command true Race.timeout stdout stderr flags) := by
  refine ⟨?_, ?_, ?_, ?_⟩
  · simp only [RunCommand]
    cases flags.Has WARN <;> simp
  · simp only [RunCommand]
    cases flags.Has WARN <;> simp [reports]
  · intro stdout' stderr'
    simp only [RunCommand]
  · intro flags' hw
    simp only [RunCommand, hw]

/-- C10 fails on the code when `cmd.Start()` has failed, which the source does
not check: for the command `a`, NUL, `b`, which `exec` refuses to start, and the
flags `WARN`, a run that receives the timer first calls `cmd.Process.Kill()` on
the nil `cmd.Process` and panics. No process is killed and no timeout notice is
reported, although `WARN` is set. -/
theorem RunCommand_timeout_not_started :
    Flags.Has WARN WARN = true ∧
    RunCommand "linux" "a\x00b" false Race.timeout "" "" WARN =
      [Effect.start "sh" "-c" "a\x00b", Effect.nilPanic, Effect.wgDone] ∧
    Effect.kill ∉ RunCommand "linux" "a\x00b" false Race.timeout "" "" WARN ∧
    reports (RunCommand "linux" "a\x00b" false Race.timeout "" "" WARN) = [] := by
  decide

/-! ## The example peers -/

/-- The result of a request whose reply is `data` depends on `data` alone. -/
theorem Request_reply (conn : Conn) (req : String) (data : List Nat)
    (h : conn.peer (conn.sent ++ [req]) = Exchange.reply data) :
    (Request conn req) =
      (Request { peer := fun _ => Exchange.reply data, sent := [] } "") := by
  simp only [Request, h]

/-- A request to a peer that answers by the request text alone is answered as
its table says, whatever was sent before. -/
theorem Request_answerBy (table : String → Exchange) (sent : List String) (req : String)
    (data : List Nat) (n : Int) (ht : table req = Exchange.reply data)
    (hn : (Request { peer := fun _ => Exchange.reply data, sent := [] } "") = .ok n) :
    (Request { peer := answerBy table, sent := sent } req) = .ok n := by
  rw [← hn]
  apply Request_reply
  simp only [answerBy, List.getLast?_append, List.getLast?_singleton, Option.or, ht]

set_option maxRecDepth 1000000 in
theorem Request_status_200 :
    (Request { peer := fun _ => Exchange.reply (statusReply "200 OK"), sent := [] } "") =
      .ok 200 := by
  decide!

set_option maxRecDepth 1000000 in
theorem Request_status_401 :
    (Request { peer := fun _ => Exchange.reply (statusReply "401 Unauthorized"), sent := [] }
      "") = .ok 401 := by
  decide!

set_option maxRecDepth 1000000 in
theorem Request_status_404 :
    (Request { peer := fun _ => Exchange.reply (statusReply "404 Not Found"), sent := [] }
      "") = .ok 404 := by
  decide!

/-- The run of the probe at the camera that asks for credentials at `/a`. -/
theorem guardedCamera_run :
    check (NewRTSP "10.0.0.7:554") (always guardedCamera) (some ["/a", "/b"]) =
      [Event.dial "10.0.0.7:554", Event.request (Query (NewRTSP "10.0.0.7:554") "*"),
        Event.request (Query (NewRTSP "10.0.0.7:554") "/"),
        Event.request (Query (NewRTSP "10.0.0.7:554") "/a"),
        Event.closeConn, Event.closeChan] := by
  have ho : optionsResult (NewRTSP "10.0.0.7:554") guardedCamera = .ok 200 :=
    Request_answerBy _ _ _ _ _ rfl Request_status_200
  have hr : rootResult (NewRTSP "10.0.0.7:554") guardedCamera = .ok 404 :=
    Request_answerBy _ _ _ _ _ rfl Request_status_404
  have ha : (Request
      { peer := guardedCamera,
        sent := [Query (NewRTSP "10.0.0.7:554") "*", Query (NewRTSP "10.0.0.7:554") "/"] }
      (Query (NewRTSP "10.0.0.7:554") "/a")) = .ok 401 :=
    Request_answerBy _ _ _ _ _ rfl Request_status_401
  rw [check_eq _ _ _ guardedCamera rfl,
    checkBody_sweep _ _ _ 200 404 ho hr (by decide) (by decide), sweep_cons, ha]
  rfl

/-- The run of the probe at the server that answers 404 to everything, with
the one candidate `*`. -/
theorem emptyServer_run :
    check (NewRTSP "10.0.0.7:554") (always emptyServer) (some ["*"]) =
      [Event.dial "10.0.0.7:554", Event.request (Query (NewRTSP "10.0.0.7:554") "*"),
        Event.request (Query (NewRTSP "10.0.0.7:554") "/"),
        Event.request (Query (NewRTSP "10.0.0.7:554") "*"),
        Event.closeConn, Event.closeChan] := by
  have ho : optionsResult (NewRTSP "10.0.0.7:554") emptyServer = .ok 404 :=
    Request_answerBy _ _ _ _ _ rfl Request_status_404
  have hr : rootResult (NewRTSP "10.0.0.7:554") emptyServer = .ok 404 :=
    Request_answerBy _ _ _ _ _ rfl Request_status_404
  have ha : (Request
      { peer := emptyServer,
        sent := [Query (NewRTSP "10.0.0.7:554") "*", Query (NewRTSP "10.0.0.7:554") "/"] }
      (Query (NewRTSP "10.0.0.7:554") "*")) = .ok 404 :=
    Request_answerBy _ _ _ _ _ rfl Request_status_404
  rw [check_eq _ _ _ emptyServer rfl,
    checkBody_sweep _ _ _ 404 404 ho hr (by decide) (by decide), sweep_cons, ha]
  rfl

/-- The run of the probe at the server that answers 401 to `OPTIONS *`. -/
theorem optionsLockedCamera_run :
    check (NewRTSP "10.0.0.7:554") (always optionsLockedCamera) (some ["/1"]) =
      [Event.dial "10.0.0.7:554", Event.request (Query (NewRTSP "10.0.0.7:554") "*"),
        Event.request (Query (NewRTSP "10.0.0.7:554") "/"),
        Event.send "rtsp://10.0.0.7:554/",
        Event.closeConn, Event.closeChan] := by
  have ho : optionsResult (NewRTSP "10.0.0.7:554") optionsLockedCamera = .ok 401 :=
    Request_answerBy _ _ _ _ _ rfl Request_status_401
  have hr : rootResult (NewRTSP "10.0.0.7:554") optionsLockedCamera = .ok 200 :=
    Request_answerBy _ _ _ _ _ rfl Request_status_200
  rw [check_eq _ _ _ optionsLockedCamera rfl, checkBody_eq, ho, hr]
  rfl

/-! ## The theorems above at concrete peers -/

/-- C1 at the address `10.0.0.7:554`, a camera answering 200 to everything and
the candidates `/1`, `/live`. -/
theorem check_root_found_witness :
    emitted (check (NewRTSP "10.0.0.7:554") (always openCamera) (some ["/1", "/live"])) =
      ["rtsp://" ++ "10.0.0.7:554" ++ "/"] ∧
    requests (check (NewRTSP "10.0.0.7:554") (always openCamera) (some ["/1", "/live"])) =
      [Query (NewRTSP "10.0.0.7:554") "*", Query (NewRTSP "10.0.0.7:554") "/"] ∧
    chanOps (check (NewRTSP "10.0.0.7:554") (always openCamera) (some ["/1", "/live"])) =
      [Event.send ("rtsp://" ++ "10.0.0.7:554" ++ "/"), Event.closeChan] :=
  check_root_found "10.0.0.7:554" (always openCamera) (some ["/1", "/live"]) openCamera 200
    rfl (Request_answerBy _ _ _ _ _ rfl Request_status_200)
    (Request_answerBy _ _ _ _ _ rfl Request_status_200)

/-- C3 as worded fails: at a server that answers 404 to every request, with
the one candidate `*`, no request fails and the root and the candidate return a
status other than 200 and 401, and the request for the candidate is a second
`OPTIONS *`, not a `DESCRIBE`. -/
theorem check_exhausted_counterexample :
    optionsResult (NewRTSP "10.0.0.7:554") emptyServer = .ok 404 ∧
    rootResult (NewRTSP "10.0.0.7:554") emptyServer = .ok 404 ∧
    candidateResult (NewRTSP "10.0.0.7:554") emptyServer ["*"] 0 = .ok 404 ∧
    requests (check (NewRTSP "10.0.0.7:554") (always emptyServer) (some ["*"])) =
      ["OPTIONS * RTSP/1.0\r\nCSeq: 0\r\nUser-Agent: LibVLC/3.0.0\r\nAccept: application/sdp\r\n\r\n",
        "DESCRIBE / RTSP/1.0\r\nCSeq: 0\r\nUser-Agent: LibVLC/3.0.0\r\nAccept: application/sdp\r\n\r\n",
        "OPTIONS * RTSP/1.0\r\nCSeq: 0\r\nUser-Agent: LibVLC/3.0.0\r\nAccept: application/sdp\r\n\r\n"] :=
  ⟨Request_answerBy _ _ _ _ _ rfl Request_status_404,
    Request_answerBy _ _ _ _ _ rfl Request_status_404,
    Request_answerBy _ _ _ _ _ rfl Request_status_404,
    by rw [emptyServer_run]; rfl⟩

/-- C3, amended, at the address `10.0.0.7:554`, a server that answers 404 to
every request, and the candidates `/1`, `*`: four requests, the last an
`OPTIONS *`. -/
theorem check_exhausted_witness :
    emitted (check (NewRTSP "10.0.0.7:554") (always emptyServer) (some ["/1", "*"])) = [] ∧
    requests (check (NewRTSP "10.0.0.7:554") (always emptyServer) (some ["/1", "*"])) =
      Query (NewRTSP "10.0.0.7:554") "*" :: Query (NewRTSP "10.0.0.7:554") "/" ::
        ["/1", "*"].map (Query (NewRTSP "10.0.0.7:554")) ∧
    (requests (check (NewRTSP "10.0.0.7:554") (always emptyServer) (some ["/1", "*"]))).length =
      2 + ["/1", "*"].length ∧
    chanOps (check (NewRTSP "10.0.0.7:554") (always emptyServer) (some ["/1", "*"])) =
      [Event.closeChan] ∧
    requests (check (NewRTSP "10.0.0.7:554") (always emptyServer) (some ["/1", "*"])) =
      "OPTIONS * RTSP/1.0\r\nCSeq: 0\r\nUser-Agent: LibVLC/3.0.0\r\nAccept: application/sdp\r\n\r\n" ::
      "DESCRIBE / RTSP/1.0\r\nCSeq: 0\r\nUser-Agent: LibVLC/3.0.0\r\nAccept: application/sdp\r\n\r\n" ::
      ["/1", "*"].map fun p =>
        (if p = "*" then "OPTIONS" else "DESCRIBE") ++ " " ++ p ++
          " RTSP/1.0\r\nCSeq: 0\r\nUser-Agent: LibVLC/3.0.0\r\nAccept: application/sdp\r\n\r\n" :=
  check_exhausted "10.0.0.7:554" (always emptyServer) ["/1", "*"] emptyServer 404 404
    rfl (Request_answerBy _ _ _ _ _ rfl Request_status_404)
    (Request_answerBy _ _ _ _ _ rfl Request_status_404) (by decide) (by decide) (by
      intro j hj
      have hj2 : j < 2 := hj
      interval_cases j
      · exact ⟨404, Request_answerBy _ _ _ _ _ rfl Request_status_404, by decide, by decide⟩
      · exact ⟨404, Request_answerBy _ _ _ _ _ rfl Request_status_404, by decide, by decide⟩)

/-- C4 at the address `10.0.0.7:554` and a camera that asks for credentials on
every `DESCRIBE`. -/
theorem check_root_unauthorized_witness :
    emitted (check (NewRTSP "10.0.0.7:554") (always lockedCamera) (some ["/1", "/live"])) = [] ∧
    chanOps (check (NewRTSP "10.0.0.7:554") (always lockedCamera) (some ["/1", "/live"])) =
      [Event.closeChan] ∧
    requests (check (NewRTSP "10.0.0.7:554") (always lockedCamera) (some ["/1", "/live"])) =
      [Query (NewRTSP "10.0.0.7:554") "*", Query (NewRTSP "10.0.0.7:554") "/"] :=
  check_root_unauthorized "10.0.0.7:554" (always lockedCamera) (some ["/1", "/live"])
    lockedCamera 200 rfl (Request_answerBy _ _ _ _ _ rfl Request_status_200)
    (Request_answerBy _ _ _ _ _ rfl Request_status_401)

/-- C2 as worded fails: at a camera that answers 404 at `/`, 401 at `/a` and
200 at `/b`, the candidate `/b` at position 1 is the first to return 200, and
the probe over the candidates `/a`, `/b` stops at `/a` and emits nothing. -/
theorem check_first_found_counterexample :
    optionsResult (NewRTSP "10.0.0.7:554") guardedCamera = .ok 200 ∧
    rootResult (NewRTSP "10.0.0.7:554") guardedCamera = .ok 404 ∧
    candidateResult (NewRTSP "10.0.0.7:554") guardedCamera ["/a", "/b"] 0 = .ok 401 ∧
    candidateResult (NewRTSP "10.0.0.7:554") guardedCamera ["/a", "/b"] 1 = .ok 200 ∧
    emitted (check (NewRTSP "10.0.0.7:554") (always guardedCamera) (some ["/a", "/b"])) = [] ∧
    requests (check (NewRTSP "10.0.0.7:554") (always guardedCamera) (some ["/a", "/b"])) =
      [Query (NewRTSP "10.0.0.7:554") "*", Query (NewRTSP "10.0.0.7:554") "/",
        Query (NewRTSP "10.0.0.7:554") "/a"] :=
  ⟨Request_answerBy _ _ _ _ _ rfl Request_status_200,
    Request_answerBy _ _ _ _ _ rfl Request_status_404,
    Request_answerBy _ _ _ _ _ rfl Request_status_401,
    Request_answerBy _ _ _ _ _ rfl Request_status_200,
    by rw [guardedCamera_run]; rfl, by rw [guardedCamera_run]; rfl⟩

/-- C2, amended, at the address `10.0.0.7:554`, a camera whose only stream is
at `/live`, and the candidates `/1`, `/live`, `/x`. -/
theorem check_candidate_found_witness :
    emitted (check (NewRTSP "10.0.0.7:554") (always liveCamera) (some ["/1", "/live", "/x"])) =
      ["rtsp://" ++ "10.0.0.7:554" ++ ["/1", "/live", "/x"].getD 1 ""] ∧
    requests (check (NewRTSP "10.0.0.7:554") (always liveCamera) (some ["/1", "/live", "/x"])) =
      Query (NewRTSP "10.0.0.7:554") "*" :: Query (NewRTSP "10.0.0.7:554") "/" ::
        (["/1", "/live", "/x"].take (1 + 1)).map (Query (NewRTSP "10.0.0.7:554")) ∧
    chanOps (check (NewRTSP "10.0.0.7:554") (always liveCamera) (some ["/1", "/live", "/x"])) =
      [Event.send ("rtsp://" ++ "10.0.0.7:554" ++ ["/1", "/live", "/x"].getD 1 ""),
        Event.closeChan] :=
  check_candidate_found "10.0.0.7:554" (always liveCamera) ["/1", "/live", "/x"] liveCamera
    200 404 1 rfl (Request_answerBy _ _ _ _ _ rfl Request_status_200)
    (Request_answerBy _ _ _ _ _ rfl Request_status_404) (by decide) (by decide) (by decide)
    (by
      intro j hj
      have hj0 : j = 0 := by omega
      subst hj0
      exact ⟨404, Request_answerBy _ _ _ _ _ rfl Request_status_404, by decide, by decide⟩)
    (Request_answerBy _ _ _ _ _ rfl Request_status_200)

/-- C5 as worded fails at the `OPTIONS *` request: at a server that answers it
with 401 and answers 200 to `DESCRIBE /`, the probe goes on to send
`DESCRIBE /` and emits a value. -/
theorem check_options_unauthorized_counterexample :
    optionsResult (NewRTSP "10.0.0.7:554") optionsLockedCamera = .ok 401 ∧
    requests (check (NewRTSP "10.0.0.7:554") (always optionsLockedCamera) (some ["/1"])) =
      [Query (NewRTSP "10.0.0.7:554") "*", Query (NewRTSP "10.0.0.7:554") "/"] ∧
    emitted (check (NewRTSP "10.0.0.7:554") (always optionsLockedCamera) (some ["/1"])) =
      ["rtsp://10.0.0.7:554/"] :=
  ⟨Request_answerBy _ _ _ _ _ rfl Request_status_401,
    by rw [optionsLockedCamera_run]; rfl, by rw [optionsLockedCamera_run]; rfl⟩

/-- C5, amended, at the address `10.0.0.7:554`, a camera that answers 200 to
`OPTIONS *`, 404 at `/` and 401 at `/a`, and the candidates `/a`, `/b`: the
third request, answered 401, is the last and nothing is emitted; and the
`OPTIONS *` reply, of status 200, is followed by `DESCRIBE /`. -/
theorem check_unauthorized_witness :
    ((requests (check (NewRTSP "10.0.0.7:554") (always guardedCamera)
        (some ["/a", "/b"]))).length = 2 + 1 ∧
      emitted (check (NewRTSP "10.0.0.7:554") (always guardedCamera) (some ["/a", "/b"])) = []) ∧
    (requests (check (NewRTSP "10.0.0.7:554") (always guardedCamera) (some ["/a", "/b"]))).take 2 =
      [Query (NewRTSP "10.0.0.7:554") "*", Query (NewRTSP "10.0.0.7:554") "/"] :=
  have h := check_unauthorized "10.0.0.7:554" (always guardedCamera) (some ["/a", "/b"])
    guardedCamera rfl
  ⟨h.1 2 (by decide) (by rw [guardedCamera_run]; decide)
      (by rw [guardedCamera_run]; exact Request_answerBy _ _ _ _ _ rfl Request_status_401),
    by
      rw [h.2.2 200 (Request_answerBy _ _ _ _ _ rfl Request_status_200)]
      rfl⟩

/-- C8, amended, at the reply `RTSP/1.0 200 OK` of a camera to `OPTIONS *`. -/
theorem Request_parse_witness :
    (Request { peer := openCamera, sent := [] } (Query (NewRTSP "10.0.0.7:554") "*")) = .ok 200 ↔
      2 < (Fields (readBuffer (statusReply "200 OK"))).length ∧
        HasPrefix ((Fields (readBuffer (statusReply "200 OK"))).getD 0 []) (bytesOf "RTSP")
          = true ∧
        IsDecimal ((Fields (readBuffer (statusReply "200 OK"))).getD 1 []) 200 :=
  (Request_parse { peer := openCamera, sent := [] } (Query (NewRTSP "10.0.0.7:554") "*")
    (statusReply "200 OK") rfl).1 200

set_option maxRecDepth 1000000 in
/-- C8 as worded fails twice. The first line of the reply
`RTSP/1.0 200`, line break, `CSeq: 0`, has two fields, and `Request` returns 200
with no error: it splits the whole buffer. The first line of the reply
`RTSP/1.0 abc OK` has three fields, the first with the prefix and the second
not a number, and `Request` fails with the `NumError` of `Atoi`, not with the
`Bad response` error. -/
theorem Request_first_line_counterexample :
    firstLineFields (bytesOf "RTSP/1.0 200\r\nCSeq: 0\r\n\r\n") =
      [bytesOf "RTSP/1.0", bytesOf "200"] ∧
    (Request { peer := fun _ => Exchange.reply (bytesOf "RTSP/1.0 200\r\nCSeq: 0\r\n\r\n"),
               sent := [] } (Query (NewRTSP "10.0.0.7:554") "/")) = .ok 200 ∧
    firstLineFields (bytesOf "RTSP/1.0 abc OK\r\nCSeq: 0\r\n\r\n") =
      [bytesOf "RTSP/1.0", bytesOf "abc", bytesOf "OK"] ∧
    (Request { peer := fun _ => Exchange.reply (bytesOf "RTSP/1.0 abc OK\r\nCSeq: 0\r\n\r\n"),
               sent := [] } (Query (NewRTSP "10.0.0.7:554") "/")) =
      .error (Error.numError (bytesOf "abc") NumErr.ErrSyntax) ∧
    Error.numError (bytesOf "abc") NumErr.ErrSyntax ≠ Error.badResponse := by
  decide!

end GoNs
